import Mathlib

/-!
Verification of the Conversation & Feedback Store with Automatic Evaluation
of the `lecture-ai-engineering` repository (day1/02_streamlit_app).

The repository ships `app.py` (the Streamlit glue, embedded below for the
page-routing claims) together with the modules `database`, `data`, `metrics`
and `ui` that `app.py` calls.  Those modules are not part of the visible
sources, so the storage engine, the sample seeding and the evaluator are
modelled here from the specification and all claims about them are settled
against those spec-modelled definitions.
-/

/-! ## Evaluator (spec §4.2)

Modelled from the spec: the `metrics` module (called from `app.py` as
`metrics.initialize_nltk`) is not in the visible sources.  The evaluator is
modelled from §4.2: a deterministic token-overlap precision score with
whitespace-and-punctuation tokenisation, total over all text inputs,
returning 0 when either side has no tokens, with rational values in [0,1].
-/

/-- A separator character for tokenisation: whitespace or punctuation. -/
def isSep (c : Char) : Bool :=
  c.isWhitespace || c = '.' || c = ',' || c = '!' || c = '?' || c = ';' || c = ':'

/-- Emit the word accumulated so far (reversed accumulator), if any. -/
def flushAcc (acc : List Char) : List String :=
  if acc.isEmpty then [] else [String.mk acc.reverse]

/-- Split a character stream into words at separator characters. -/
def tokenizeChars : List Char → List Char → List String
  | [], acc => flushAcc acc
  | c :: cs, acc =>
    if isSep c then flushAcc acc ++ tokenizeChars cs []
    else tokenizeChars cs (c :: acc)

/-- Modelled from the spec: stable tokenisation rule, "whitespace +
punctuation splitting"; empty fragments are dropped. -/
def tokenize (t : String) : List String := tokenizeChars t.data []

/-- Modelled from the spec: `score(candidate, reference)` — unigram-overlap
precision (n-gram precision style, §4.2); returns the defined empty-input
value 0 when either side tokenises to nothing. -/
def score (candidate reference : String) : ℚ :=
  if (tokenize candidate).isEmpty || (tokenize reference).isEmpty then 0
  else (((tokenize candidate).filter
          (fun w => (tokenize reference).contains w)).length : ℚ)
       / ((tokenize candidate).length : ℚ)

example : tokenize "" = [] := by decide
example : tokenize " " = [] := by decide
example : score "" "anything" = 0 := by
  have h : tokenize "" = [] := by decide
  simp [score, h]
example : score "anything" "" = 0 := by
  have h : tokenize "" = [] := by decide
  simp [score, h]
example : score "hi there" "hi there" = 1 := by
  have h : tokenize "hi there" = ["hi", "there"] := by decide
  simp [score, h]
example : score " " " " = 0 := by
  have h : tokenize " " = [] := by decide
  simp [score, h]
example : tokenize "hi there" = ["hi", "there"] := by decide

lemma tokenize_empty : tokenize "" = [] := by decide

lemma score_of_empty_left (r : String) : score "" r = 0 := by
  simp [score, tokenize_empty]

lemma score_of_empty_right (c : String) : score c "" = 0 := by
  simp [score, tokenize_empty]

/-- C4: for every pair of text inputs, `score` returns a value in [0, 1]
(it is a total Lean function, so it never fails), and returns the defined
empty-input value 0 when either input is the empty string. -/
theorem score_total_in_unit_interval (c r : String) :
    0 ≤ score c r ∧ score c r ≤ 1 ∧ score "" r = 0 ∧ score c "" = 0 := by
  refine ⟨?_, ?_, score_of_empty_left r, score_of_empty_right c⟩
  · unfold score
    split
    · exact le_refl 0
    · positivity
  · unfold score
    split
    · norm_num
    · rename_i h
      have hc : tokenize c ≠ [] := by
        simp only [Bool.or_eq_true, List.isEmpty_iff] at h
        exact fun hnil => h (Or.inl hnil)
      have hlen : 0 < ((tokenize c).length : ℚ) := by
        exact_mod_cast List.length_pos.mpr hc
      rw [div_le_one hlen]
      exact_mod_cast List.length_filter_le _ _

/-- C5 counterexample: the whitespace-only string " " is non-empty, yet
`score " " " "` is 0, not the claimed maximum 1, because " " tokenises to
no tokens and the evaluator treats token-less input as empty input. -/
theorem score_self_space_ne_one : (" " : String) ≠ "" ∧ score " " " " ≠ 1 := by
  constructor
  · decide
  · have h : tokenize " " = [] := by decide
    simp [score, h]

/-- C5 amended: `score "" y = 0` and `score y "" = 0` for every text `y`,
and `score x x = 1` for every text `x` that contains at least one token
(non-empty after whitespace-and-punctuation tokenisation). -/
theorem score_empty_zero_self_one (x y : String) (hx : tokenize x ≠ []) :
    score "" y = 0 ∧ score y "" = 0 ∧ score x x = 1 := by
  refine ⟨score_of_empty_left y, score_of_empty_right y, ?_⟩
  unfold score
  rw [if_neg (by simp [List.isEmpty_iff, hx])]
  have hfilter :
      (tokenize x).filter (fun w => (tokenize x).contains w) = tokenize x := by
    apply List.filter_eq_self.mpr
    intro w hw
    simpa using hw
  rw [hfilter]
  have hne : ((tokenize x).length : ℚ) ≠ 0 := by
    have := List.length_pos.mpr hx
    positivity
  exact div_self hne

/-- Witness for C5 amended, at x = "hello", y = "abc". -/
theorem score_empty_zero_self_one_witness :
    tokenize "hello" ≠ [] ∧
      (score "" "abc" = 0 ∧ score "abc" "" = 0 ∧ score "hello" "hello" = 1) :=
  ⟨by decide, score_empty_zero_self_one "hello" "abc" (by decide)⟩

/-! ## Schema/Storage Engine (spec §3, §4.1)

Modelled from the spec: the `database` module (called from `app.py` as
`database.init_db`) and the `data` module (`data.ensure_initial_data`) are
not in the visible sources.  The store is modelled from §3 (data model) and
§4.1 (public contract): tables for conversations, messages, feedback and
sample entries, monotone id and timestamp counters, and the CRUD surface.
Concurrency (§5) is serialized per operation, as the spec requires, so a
concurrent history is an arbitrary interleaving, i.e. a list of operations.
-/

structure Conversation where
  id : Nat
  title : Option String
  createdAt : Nat
deriving DecidableEq

structure Message where
  id : Nat
  conversationId : Nat
  role : String
  content : String
  ordinal : Nat
  createdAt : Nat
deriving DecidableEq

structure Feedback where
  messageId : Nat
  rating : Int
  comment : Option String
  autoScore : Option ℚ
  updatedAt : Nat
deriving DecidableEq

structure SampleEntry where
  prompt : String
  reference : String
deriving DecidableEq

inductive StoreError
  | NotFound
  | ValidationError
  | StorageInitError
deriving DecidableEq

structure Store where
  schemaOk : Bool
  conversations : List Conversation
  messages : List Message
  feedbacks : List Feedback
  samples : List SampleEntry
  nextConvId : Nat
  nextMsgId : Nat
  clock : Nat
deriving DecidableEq

def emptyStore : Store :=
  ⟨true, [], [], [], [], 0, 0, 0⟩

/-- Modelled from the spec: `database.init_db` / `initialize()` (§4.1) —
idempotently ensures the schema exists; fails with `StorageInitError` only
on unrecoverable medium failure, which is modelled by the `mediumOk` flag. -/
def init_db (s : Store) (mediumOk : Bool) : Except StoreError Store :=
  if mediumOk then .ok { s with schemaOk := true }
  else .error .StorageInitError

/-- Modelled from the spec: `createConversation(title?)` (§4.1) — always
succeeds; assigns a fresh unique id and the current creation timestamp. -/
def createConversation (s : Store) (title : Option String) : Store × Nat :=
  ({ s with
      conversations := s.conversations ++ [⟨s.nextConvId, title, s.clock⟩],
      nextConvId := s.nextConvId + 1,
      clock := s.clock + 1 },
   s.nextConvId)

/-- The messages of one conversation, in insertion order. -/
def convMessages (s : Store) (cid : Nat) : List Message :=
  s.messages.filter (fun m => m.conversationId == cid)

/-- Modelled from the spec: `appendMessage(conversationId, role, content)`
(§4.1) — fails with `NotFound` if the conversation does not exist; assigns
the next ordinal atomically. -/
def appendMessage (s : Store) (cid : Nat) (role content : String) :
    Except StoreError (Store × Nat) :=
  if s.conversations.any (fun c => c.id == cid) then
    .ok ({ s with
            messages := s.messages ++
              [⟨s.nextMsgId, cid, role, content, (convMessages s cid).length, s.clock⟩],
            nextMsgId := s.nextMsgId + 1,
            clock := s.clock + 1 },
         s.nextMsgId)
  else .error .NotFound

def findMessage (s : Store) (mid : Nat) : Option Message :=
  s.messages.find? (fun m => m.id == mid)

/-- Modelled from the spec: `upsertFeedback(messageId, rating, comment?,
autoScore?)` (§4.1) — fails with `NotFound` if the message does not exist or
is not an `assistant` message; overwrites any prior feedback for that
message (last-write-wins, update timestamp refreshed). -/
def upsertFeedback (s : Store) (mid : Nat) (rating : Int)
    (comment : Option String) (autoScore : Option ℚ) :
    Except StoreError Store :=
  match findMessage s mid with
  | none => .error .NotFound
  | some m =>
    if m.role = "assistant" then
      .ok { s with
              feedbacks := s.feedbacks.filter (fun f => f.messageId != mid) ++
                [⟨mid, rating, comment, autoScore, s.clock⟩],
              clock := s.clock + 1 }
    else .error .NotFound

/-- Modelled from the spec: `deleteConversation(id)` (§4.1) — cascades to
the conversation's messages and their feedback; fails with `NotFound` if
the conversation is absent. -/
def deleteConversation (s : Store) (cid : Nat) : Except StoreError Store :=
  if s.conversations.any (fun c => c.id == cid) then
    .ok { s with
            conversations := s.conversations.filter (fun c => c.id != cid),
            messages := s.messages.filter (fun m => m.conversationId != cid),
            feedbacks := s.feedbacks.filter (fun f =>
              !(s.messages.any (fun m => m.conversationId == cid && m.id == f.messageId))) }
  else .error .NotFound

structure ConversationDetail where
  conversation : Conversation
  messages : List (Message × Option Feedback)

/-- Modelled from the spec: `getConversation(id)` /
`loadConversationDetail(id)` (§4.1, §4.3) — the conversation with its
messages in ordinal order, each message's feedback inlined; fails with
`NotFound` if absent. -/
def getConversation (s : Store) (cid : Nat) :
    Except StoreError ConversationDetail :=
  match s.conversations.find? (fun c => c.id == cid) with
  | none => .error .NotFound
  | some c =>
    .ok ⟨c, ((convMessages s cid).insertionSort (fun a b => a.ordinal ≤ b.ordinal)).map
            (fun m => (m, s.feedbacks.find? (fun f => f.messageId == m.id)))⟩

/-- Modelled from the spec: `data.ensure_initial_data` / `seedIfEmpty(entries)`
(§4.1) — inserts the given entries only if the sample table is currently
empty; otherwise a no-op. -/
def seedIfEmpty (s : Store) (entries : List SampleEntry) : Store :=
  if s.samples.isEmpty then { s with samples := entries } else s

structure ConversationSummary where
  id : Nat
  title : Option String
  createdAt : Nat
  messageCount : Nat
deriving DecidableEq

def summarize (s : Store) (c : Conversation) : ConversationSummary :=
  ⟨c.id, c.title, c.createdAt, (convMessages s c.id).length⟩

/-- Modelled from the spec: `listConversations(limit?, offset?)` (§4.1) —
summaries ordered newest-first by creation timestamp, paginated. -/
def listConversations (s : Store) (lim off : Nat) : List ConversationSummary :=
  ((((s.conversations).insertionSort (fun a b => b.createdAt ≤ a.createdAt)).drop off).take lim).map
    (summarize s)

/-- Modelled from the spec: `browseHistory(limit, offset)` (§4.3) — built on
`listConversations`. -/
def browseHistory (s : Store) (lim off : Nat) : List ConversationSummary :=
  listConversations s lim off

/-! ## Operation histories

§5: operations are serialized (per-conversation ordinal assignment is
serialized, feedback upsert is last-write-wins); a concurrent history is
therefore an arbitrary interleaving of atomic operations, modelled as a
list of operations applied in order. -/

inductive StoreOp
  | create (title : Option String)
  | append (cid : Nat) (role content : String)
  | upsert (mid : Nat) (rating : Int) (comment : Option String) (autoScore : Option ℚ)
  | cascadeDelete (cid : Nat)
  | seed (entries : List SampleEntry)

def applyOp (s : Store) : StoreOp → Store
  | .create t => (createConversation s t).1
  | .append cid role content =>
    match appendMessage s cid role content with
    | .ok p => p.1
    | .error _ => s
  | .upsert mid r c a =>
    match upsertFeedback s mid r c a with
    | .ok s2 => s2
    | .error _ => s
  | .cascadeDelete cid =>
    match deleteConversation s cid with
    | .ok s2 => s2
    | .error _ => s
  | .seed entries => seedIfEmpty s entries

def runOps (s : Store) (ops : List StoreOp) : Store :=
  ops.foldl applyOp s

/-- The ordinal invariant: in every conversation, the ordinals of its
messages, read in display order, are exactly `0..n-1`. -/
def ordinalsOk (s : Store) : Prop :=
  ∀ cid : Nat, (convMessages s cid).map Message.ordinal =
    List.range (convMessages s cid).length

lemma ordinalsOk_empty : ordinalsOk emptyStore := fun _ => rfl

lemma ordinalsOk_of_messages_eq {s s2 : Store} (h : ordinalsOk s)
    (hmsg : s2.messages = s.messages) : ordinalsOk s2 := by
  intro cid
  unfold convMessages
  rw [hmsg]
  exact h cid

lemma ordinalsOk_appendMsg {s : Store} (cid : Nat) (role content : String)
    (h : ordinalsOk s) {s2 : Store} {mid : Nat}
    (happ : appendMessage s cid role content = .ok (s2, mid)) :
    ordinalsOk s2 := by
  unfold appendMessage at happ
  split at happ
  · cases happ
    intro cid'
    have hbase := h cid'
    unfold convMessages at hbase ⊢
    simp only [List.filter_append]
    by_cases hc : cid = cid'
    · subst hc
      simp only [List.filter, beq_self_eq_true, cond_true]
      rw [List.map_append, List.length_append, hbase]
      simp [List.range_succ]
    · have hne : ((⟨s.nextMsgId, cid, role, content,
          (List.filter (fun m => m.conversationId == cid) s.messages).length,
          s.clock⟩ : Message).conversationId == cid') = false := by
        simpa using hc
      simp only [List.filter, hne, cond_false, List.append_nil]
      exact hbase
  · cases happ

lemma ordinalsOk_delete {s : Store} (cid : Nat) (h : ordinalsOk s)
    {s2 : Store} (hdel : deleteConversation s cid = .ok s2) :
    ordinalsOk s2 := by
  unfold deleteConversation at hdel
  split at hdel
  · cases hdel
    intro cid'
    have hbase := h cid'
    unfold convMessages at hbase ⊢
    simp only
    rw [List.filter_filter]
    by_cases hc : cid' = cid
    · have hnil : List.filter
          (fun m => m.conversationId == cid' && m.conversationId != cid)
          s.messages = [] := by
        apply List.filter_eq_nil_iff.mpr
        intro m _
        simp [hc]
      rw [hnil]
      rfl
    · have hpred : ∀ m : Message,
          (m.conversationId == cid' && m.conversationId != cid) =
            (m.conversationId == cid') := by
        intro m
        by_cases hm : m.conversationId = cid'
        · simp [hm, hc]
        · simp [hm]
      rw [funext hpred]
      exact hbase
  · cases hdel

lemma ordinalsOk_applyOp (s : Store) (op : StoreOp) (h : ordinalsOk s) :
    ordinalsOk (applyOp s op) := by
  cases op with
  | create t => exact ordinalsOk_of_messages_eq h rfl
  | append cid role content =>
    simp only [applyOp]
    cases happ : appendMessage s cid role content with
    | ok p => exact ordinalsOk_appendMsg cid role content h (by rw [happ])
    | error e => exact h
  | upsert mid r c a =>
    simp only [applyOp]
    cases hup : upsertFeedback s mid r c a with
    | ok s2 =>
      refine ordinalsOk_of_messages_eq h ?_
      unfold upsertFeedback at hup
      split at hup
      · cases hup
      · split at hup
        · cases hup
          rfl
        · cases hup
    | error e => exact h
  | cascadeDelete cid =>
    simp only [applyOp]
    cases hdel : deleteConversation s cid with
    | ok s2 => exact ordinalsOk_delete cid h hdel
    | error e => exact h
  | seed entries =>
    simp only [applyOp, seedIfEmpty]
    split
    · exact ordinalsOk_of_messages_eq h rfl
    · exact h

lemma ordinalsOk_runOps (s : Store) (ops : List StoreOp) (h : ordinalsOk s) :
    ordinalsOk (runOps s ops) := by
  induction ops generalizing s with
  | nil => exact h
  | cons op rest ih => exact ih (applyOp s op) (ordinalsOk_applyOp s op h)

/-- C1: after any history of operations on the store — in particular any
interleaving of `appendMessage` calls, the per-conversation serialization
of a concurrent workload — the ordinals of the `n` messages of every
conversation are exactly `0..n-1`, with no duplicates and no gaps. -/
theorem appendMessage_ordinals_exact_range (ops : List StoreOp) (cid : Nat) :
    (convMessages (runOps emptyStore ops) cid).map Message.ordinal =
      List.range (convMessages (runOps emptyStore ops) cid).length :=
  ordinalsOk_runOps emptyStore ops ordinalsOk_empty cid

/-! ## C2: upsertFeedback is last-write-wins with a single record -/

lemma filter_upserted (mid : Nat) (fs : List Feedback) (f : Feedback)
    (hf : f.messageId = mid) :
    ((fs.filter (fun g => g.messageId != mid)) ++ [f]).filter
        (fun g => g.messageId == mid) = [f] := by
  rw [List.filter_append]
  have h0 : (fs.filter (fun g => g.messageId != mid)).filter
      (fun g => g.messageId == mid) = [] := by
    rw [List.filter_filter]
    apply List.filter_eq_nil_iff.mpr
    intro g _
    by_cases hg : g.messageId = mid <;> simp [hg]
  rw [h0]
  simp [hf]

/-- The store state after a successful `upsertFeedback` (named for proofs). -/
def upsertResult (s : Store) (mid : Nat) (r : Int) (c : Option String)
    (a : Option ℚ) : Store :=
  { s with
    feedbacks := s.feedbacks.filter (fun f => f.messageId != mid) ++
      [⟨mid, r, c, a, s.clock⟩],
    clock := s.clock + 1 }

/-- C2: for every assistant message, two successive `upsertFeedback` calls
(with any two argument sets) both succeed and leave exactly one Feedback
record for that message; the record carries the second call's rating,
comment and auto-score, and its update timestamp is strictly newer than the
first record's. -/
theorem upsertFeedback_last_write_wins (s : Store) (mid : Nat) (m : Message)
    (hm : findMessage s mid = some m) (hrole : m.role = "assistant")
    (r1 r2 : Int) (c1 c2 : Option String) (a1 a2 : Option ℚ) :
    ∃ s1 s2,
      upsertFeedback s mid r1 c1 a1 = .ok s1 ∧
      upsertFeedback s1 mid r2 c2 a2 = .ok s2 ∧
      s1.feedbacks.filter (fun f => f.messageId == mid) =
        [⟨mid, r1, c1, a1, s.clock⟩] ∧
      s2.feedbacks.filter (fun f => f.messageId == mid) =
        [⟨mid, r2, c2, a2, s1.clock⟩] ∧
      s.clock < s1.clock := by
  refine ⟨upsertResult s mid r1 c1 a1,
    upsertResult (upsertResult s mid r1 c1 a1) mid r2 c2 a2, ?_, ?_, ?_, ?_, ?_⟩
  · simp [upsertFeedback, hm, hrole, upsertResult]
  · have hm1 : findMessage (upsertResult s mid r1 c1 a1) mid = some m := hm
    unfold upsertFeedback
    rw [hm1]
    simp [hrole, upsertResult]
  · exact filter_upserted mid s.feedbacks _ rfl
  · exact filter_upserted mid _ _ rfl
  · exact Nat.lt_succ_self s.clock

/-- A concrete store: one conversation with a user and an assistant turn,
built through the public operations. -/
def storeWithAssistant : Store :=
  runOps emptyStore
    [.create (some "demo"), .append 0 "user" "Hi", .append 0 "assistant" "Hello"]

example : storeWithAssistant.messages =
    [⟨0, 0, "user", "Hi", 0, 1⟩, ⟨1, 0, "assistant", "Hello", 1, 2⟩] := by decide

/-- Witness for C2, at the assistant message of `storeWithAssistant`. -/
theorem upsertFeedback_last_write_wins_witness :
    findMessage storeWithAssistant 1 = some ⟨1, 0, "assistant", "Hello", 1, 2⟩ ∧
    (∃ s1 s2,
      upsertFeedback storeWithAssistant 1 1 none none = .ok s1 ∧
      upsertFeedback s1 1 (-1) (some "bad") (some (4/5)) = .ok s2 ∧
      s1.feedbacks.filter (fun f => f.messageId == 1) =
        [⟨1, 1, none, none, storeWithAssistant.clock⟩] ∧
      s2.feedbacks.filter (fun f => f.messageId == 1) =
        [⟨1, -1, some "bad", some (4/5), s1.clock⟩] ∧
      storeWithAssistant.clock < s1.clock) :=
  ⟨by decide,
   upsertFeedback_last_write_wins storeWithAssistant 1
     ⟨1, 0, "assistant", "Hello", 1, 2⟩ (by decide) rfl
     1 (-1) none (some "bad") none (some (4/5))⟩

/-! ## C3: deleteConversation cascades and distinguishes absence -/

/-- The store state after a successful `deleteConversation` (named for
proofs). -/
def deleteResult (s : Store) (cid : Nat) : Store :=
  { s with
    conversations := s.conversations.filter (fun c => c.id != cid),
    messages := s.messages.filter (fun m => m.conversationId != cid),
    feedbacks := s.feedbacks.filter (fun f =>
      !(s.messages.any (fun m => m.conversationId == cid && m.id == f.messageId))) }

/-- C3: deleting an existing conversation succeeds and removes the
conversation together with all of its messages and their feedback, so a
subsequent `getConversation` fails with `NotFound`; deleting an absent
conversation fails with `NotFound` instead of silently succeeding. -/
theorem deleteConversation_cascades (s : Store) (cid : Nat) :
    ((∃ c ∈ s.conversations, c.id = cid) →
      ∃ s2, deleteConversation s cid = .ok s2 ∧
        getConversation s2 cid = .error .NotFound ∧
        (∀ m ∈ s2.messages, m.conversationId ≠ cid) ∧
        (∀ f ∈ s2.feedbacks, ∀ m ∈ s.messages,
          m.conversationId = cid → f.messageId ≠ m.id)) ∧
    ((∀ c ∈ s.conversations, c.id ≠ cid) →
      deleteConversation s cid = .error .NotFound) := by
  constructor
  · intro hex
    have hany : (s.conversations.any (fun c => c.id == cid)) = true := by
      rw [List.any_eq_true]
      obtain ⟨c, hc, hcid⟩ := hex
      exact ⟨c, hc, by simpa using hcid⟩
    refine ⟨deleteResult s cid, ?_, ?_, ?_, ?_⟩
    · unfold deleteConversation deleteResult
      rw [if_pos hany]
    · unfold getConversation deleteResult
      have hfind : (s.conversations.filter (fun c => c.id != cid)).find?
          (fun c => c.id == cid) = none := by
        apply List.find?_eq_none.mpr
        intro c hc
        have := List.of_mem_filter hc
        simpa using this
      simp only [hfind]
    · intro m hm
      simp only [deleteResult] at hm
      have := List.of_mem_filter hm
      simpa using this
    · intro f hf m hmem hconv
      simp only [deleteResult] at hf
      have hcond := List.of_mem_filter hf
      simp only [Bool.not_eq_true'] at hcond
      rw [List.any_eq_false] at hcond
      have := hcond m hmem
      simp only [Bool.and_eq_true, beq_iff_eq, not_and] at this
      exact fun hid => this hconv hid.symm
  · intro habs
    unfold deleteConversation
    rw [if_neg]
    simp only [List.any_eq_true, not_exists]
    intro c
    rw [not_and]
    intro hc
    simpa using habs c hc

/-- Witness for C3: delete the existing conversation 0 of
`storeWithAssistant`, and delete the absent conversation 5. -/
theorem deleteConversation_cascades_witness :
    (∃ s2, deleteConversation storeWithAssistant 0 = .ok s2 ∧
      getConversation s2 0 = .error .NotFound ∧
      (∀ m ∈ s2.messages, m.conversationId ≠ 0) ∧
      (∀ f ∈ s2.feedbacks, ∀ m ∈ storeWithAssistant.messages,
        m.conversationId = 0 → f.messageId ≠ m.id)) ∧
    deleteConversation storeWithAssistant 5 = .error .NotFound :=
  ⟨(deleteConversation_cascades storeWithAssistant 0).1 (by decide),
   (deleteConversation_cascades storeWithAssistant 5).2 (by decide)⟩

/-! ## C6: seedIfEmpty seeds once -/

/-- C6: `seedIfEmpty` inserts the entries only when the sample table is
empty, is a no-op otherwise, and from an empty store two calls with the
same entries leave the sample table containing those entries exactly once. -/
theorem seedIfEmpty_seeds_once (s : Store) (entries : List SampleEntry) :
    (s.samples = [] → (seedIfEmpty s entries).samples = entries) ∧
    (s.samples ≠ [] → seedIfEmpty s entries = s) ∧
    (seedIfEmpty (seedIfEmpty emptyStore entries) entries).samples = entries := by
  refine ⟨?_, ?_, ?_⟩
  · intro h
    simp [seedIfEmpty, h]
  · intro h
    simp [seedIfEmpty, List.isEmpty_iff, h]
  · by_cases he : entries = []
    · simp [seedIfEmpty, he, emptyStore]
    · simp [seedIfEmpty, List.isEmpty_iff, he, emptyStore]

def sampleA : SampleEntry := ⟨"What is 2+2?", "4"⟩

/-- Witness for C6 at the singleton entry list `[sampleA]`. -/
theorem seedIfEmpty_seeds_once_witness :
    (seedIfEmpty emptyStore [sampleA]).samples = [sampleA] ∧
    seedIfEmpty (seedIfEmpty emptyStore [sampleA]) [sampleA] =
      seedIfEmpty emptyStore [sampleA] ∧
    (seedIfEmpty (seedIfEmpty emptyStore [sampleA]) [sampleA]).samples =
      [sampleA] :=
  ⟨(seedIfEmpty_seeds_once emptyStore [sampleA]).1 rfl,
   (seedIfEmpty_seeds_once (seedIfEmpty emptyStore [sampleA]) [sampleA]).2.1
     (by decide),
   (seedIfEmpty_seeds_once emptyStore [sampleA]).2.2⟩

/-! ## C8: init_db is idempotent -/

/-- C8: `init_db` (the spec's `initialize`) is idempotent — a successful
call yields a state on which a second call is a fixed point, and it never
touches the stored data; when the schema already exists the state is
returned unchanged; it fails with `StorageInitError` exactly on
unrecoverable medium failure. -/
theorem init_db_idempotent (s : Store) :
    (∀ s1, init_db s true = .ok s1 →
      init_db s1 true = .ok s1 ∧
      s1.conversations = s.conversations ∧ s1.messages = s.messages ∧
      s1.feedbacks = s.feedbacks ∧ s1.samples = s.samples) ∧
    (s.schemaOk = true → init_db s true = .ok s) ∧
    init_db s false = .error .StorageInitError := by
  refine ⟨?_, ?_, rfl⟩
  · intro s1 h
    have h1 : ({ s with schemaOk := true } : Store) = s1 := by
      simpa [init_db] using h
    subst h1
    exact ⟨rfl, rfl, rfl, rfl, rfl⟩
  · intro h
    obtain ⟨sc, cv, ms, fb, sp, nc, nm, ck⟩ := s
    simp only at h
    subst h
    rfl

def uninitStore : Store := ⟨false, [], [], [], [], 0, 0, 0⟩

/-- Witness for C8: initialising an uninitialised store, re-initialising an
initialised one, and a medium failure. -/
theorem init_db_idempotent_witness :
    (init_db emptyStore true = .ok emptyStore ∧
      emptyStore.conversations = uninitStore.conversations ∧
      emptyStore.messages = uninitStore.messages ∧
      emptyStore.feedbacks = uninitStore.feedbacks ∧
      emptyStore.samples = uninitStore.samples) ∧
    init_db emptyStore true = .ok emptyStore ∧
    init_db uninitStore false = .error .StorageInitError :=
  ⟨(init_db_idempotent uninitStore).1 emptyStore rfl,
   (init_db_idempotent emptyStore).2.1 rfl,
   (init_db_idempotent uninitStore).2.2⟩

/-! ## C7: listConversations is newest-first -/

/-- C7: `listConversations` (and `browseHistory` built on it) is ordered
newest-first by creation timestamp for every limit and offset, and on a
store holding exactly two conversations with increasing creation
timestamps, `browseHistory(limit 1, offset 0)` returns exactly the
most-recently-created one. -/
theorem browseHistory_newest_first (s : Store) (lim off : Nat) :
    (listConversations s lim off).Pairwise
      (fun a b => b.createdAt ≤ a.createdAt) ∧
    (∀ c1 c2 : Conversation, s.conversations = [c1, c2] →
      c1.createdAt < c2.createdAt →
      browseHistory s 1 0 = [summarize s c2]) := by
  constructor
  · haveI htot : IsTotal Conversation (fun a b => b.createdAt ≤ a.createdAt) :=
      ⟨fun a b => (le_total b.createdAt a.createdAt)⟩
    haveI htr : IsTrans Conversation (fun a b => b.createdAt ≤ a.createdAt) :=
      ⟨fun _ _ _ hab hbc => le_trans hbc hab⟩
    have hsorted := List.sorted_insertionSort
      (fun a b : Conversation => b.createdAt ≤ a.createdAt) s.conversations
    unfold listConversations
    apply List.Pairwise.map
    · intro a b hab
      exact hab
    · exact ((hsorted.drop).sublist (List.take_sublist _ _))
  · intro c1 c2 hconv hlt
    unfold browseHistory listConversations
    rw [hconv]
    simp [List.insertionSort, List.orderedInsert, not_le.mpr hlt]

/-- A concrete store with two conversations created in order. -/
def storeTwoConvs : Store :=
  runOps emptyStore [.create (some "first"), .create (some "second")]

/-- Witness for C7: the second-created conversation is the single result of
`browseHistory(limit 1, offset 0)`. -/
theorem browseHistory_newest_first_witness :
    browseHistory storeTwoConvs 1 0 = [⟨1, some "second", 1, 0⟩] :=
  (browseHistory_newest_first storeTwoConvs 1 0).2
    ⟨0, some "first", 0⟩ ⟨1, some "second", 1⟩ (by decide) (by decide)

/-! ## app.py page routing (src/day1/02_streamlit_app/app.py)

The page-routing claims are settled against the visible source `app.py`:
session-state initialisation (lines 104-105), the radio selector and its
on_change callback (lines 107-117), and the main-content dispatch
(lines 152-162). -/

/-- The loaded LLM pipeline handle (`pipe`); opaque to the routing. -/
structure Pipe where
  handle : Nat
deriving DecidableEq

/-- The three radio options of the sidebar page selector. -/
def pages : List String := ["チャット", "履歴閲覧", "サンプルデータ管理"]

/-- The default page stored when `"page"` is absent from the session. -/
def defaultPage : String := "チャット"

/-- The values `st.session_state.page` can hold on a run: the default set
when the key is absent, or a value written by the radio's `on_change`
callback, which copies `st.session_state.page_selector` — always one of
the three radio options. -/
inductive PageReachable : String → Prop
  | init : PageReachable defaultPage
  | select (p : String) : p ∈ pages → PageReachable p

/-- One rendering action of the main-content container. -/
inductive MainContent
  | chatPage (p : Pipe)
  | chatUnavailable
  | historyPage
  | dataPage
  | noBranch
deriving DecidableEq

/-- The main-content dispatch of app.py on `st.session_state.page`,
including the chat branch's `if pipe:` guard: `ui.display_chat_page(pipe)`
when the pipeline loaded, the error message when it did not,
`ui.display_history_page()` and `ui.display_data_page()` for the other two
pages, and no branch otherwise. -/
def renderMain (page : String) (pipe : Option Pipe) : MainContent :=
  if page = "チャット" then
    match pipe with
    | some p => .chatPage p
    | none => .chatUnavailable
  else if page = "履歴閲覧" then .historyPage
  else if page = "サンプルデータ管理" then .dataPage
  else .noBranch

/-- The page a main-content action belongs to. -/
def contentPage : MainContent → Option String
  | .chatPage _ => some "チャット"
  | .chatUnavailable => some "チャット"
  | .historyPage => some "履歴閲覧"
  | .dataPage => some "サンプルデータ管理"
  | .noBranch => none

/-- C9: on every run, the session page is one of exactly the three
navigation values ("チャット" being the default when unset), and the
main-content dispatch runs exactly the branch belonging to that value —
never no branch, and never a branch of a different page. -/
theorem page_dispatch_total (p : String) (hp : PageReachable p) :
    p ∈ pages ∧
      ∀ pipe : Option Pipe, contentPage (renderMain p pipe) = some p := by
  have hmem : p ∈ pages := by
    cases hp with
    | init => simp [pages, defaultPage]
    | select q h => exact h
  refine ⟨hmem, ?_⟩
  intro pipe
  simp only [pages, List.mem_cons, List.not_mem_nil, or_false] at hmem
  rcases hmem with h | h | h <;> subst h
  · cases pipe <;> rfl
  · rfl
  · rfl

/-- Witness for C9 at the reachable page "履歴閲覧", with no pipeline. -/
theorem page_dispatch_total_witness :
    "履歴閲覧" ∈ pages ∧
      contentPage (renderMain "履歴閲覧" none) = some "履歴閲覧" :=
  ⟨(page_dispatch_total "履歴閲覧"
      (PageReachable.select "履歴閲覧" (by decide))).1,
   (page_dispatch_total "履歴閲覧"
      (PageReachable.select "履歴閲覧" (by decide))).2 none⟩

/-- C10: `ui.display_chat_page(pipe)` runs only when the pipeline is
present — a `chatPage p` outcome forces the loaded pipe to be `some p` —
and when `llm.load_model()` returned `None` on the chat page, the dispatch
shows the unavailability error instead of entering the chat page. -/
theorem chat_page_needs_pipe :
    (∀ (page : String) (pipe : Option Pipe) (p : Pipe),
      renderMain page pipe = .chatPage p → pipe = some p) ∧
    renderMain "チャット" none = .chatUnavailable := by
  constructor
  · intro page pipe p h
    unfold renderMain at h
    split at h
    · cases pipe with
      | some q => cases h; rfl
      | none => cases h
    · split at h
      · cases h
      · split at h
        · cases h
        · cases h
  · rfl

/-- Witness for C10: with a loaded pipeline the chat page receives exactly
that pipeline, and with no pipeline the chat page shows the error. -/
theorem chat_page_needs_pipe_witness :
    some (Pipe.mk 0) = some (Pipe.mk 0) ∧
      renderMain "チャット" none = .chatUnavailable :=
  ⟨chat_page_needs_pipe.1 "チャット" (some (Pipe.mk 0)) (Pipe.mk 0) rfl,
   chat_page_needs_pipe.2⟩
